import Mathlib

/-!
# Alert provider of the fire-department dashboard

A shallow embedding of `src/context/AlertContext.jsx`: the React state of
`AlertProvider` (`alerts`, `loading`, `unreadCount`) becomes an explicit record,
every callback (`playAlertSound`, `fetchAlerts`, `handleNewAlert`, `markAsRead`,
`clearAlerts`) becomes a function on that record, and the output surfaces
(sound, toast) are recorded in a trace.

JavaScript numbers are kept abstract: the type `ν` stands for the values that
`parseFloat` returns and that the backend sends as coordinates.
-/

namespace AlertContext

/-- The `location` object of an alert: `{ lat, lng }`. -/
structure Location (ν : Type) where
  lat : ν
  lng : ν
deriving DecidableEq, Repr

/-- An alert object as held in the `alerts` state and as sent by the backend. -/
structure Alert (ν : Type) where
  _id : String
  type : String
  location : Location ν
  status : String
  createdAt : String
deriving DecidableEq, Repr

/-- The `data` object of a push payload. Every field may be missing
(`undefined`); a field that is there is a string. -/
structure PayloadData where
  alertId : Option String
  type : Option String
  lat : Option String
  lng : Option String
  timestamp : Option String
deriving DecidableEq, Repr

/-- A push payload: an object whose `data` field may be missing. -/
structure Payload where
  data : Option PayloadData
deriving DecidableEq, Repr

/-- The two clock reads of `handleNewAlert`: `Date.now()` in milliseconds and
`new Date().toISOString()`. -/
structure Clock where
  now : Nat
  iso : String
deriving DecidableEq, Repr

/-- The output surfaces the provider drives. -/
inductive Effect where
  | playAlertSound
  | toast
deriving DecidableEq, Repr

/-- The state of `AlertProvider`: the three `useState` cells, and the trace of
output-surface invocations, oldest first. -/
structure ProviderState (ν : Type) where
  alerts : List (Alert ν)
  loading : Bool
  unreadCount : Int
  effects : List Effect
deriving DecidableEq, Repr

/-- What `await getAlerts()` yields: the promise rejects (a body on which
reading `success` throws lands in the same `catch`), or it resolves to a
response body with a `success` flag and a `data` field that may be missing. -/
inductive Response (ν : Type) where
  | rejected (message : String)
  | resolved (success : Bool) (data : Option (List (Alert ν)))
deriving DecidableEq, Repr

/-- The state right after mount: `useState([])`, `useState(false)`,
`useState(0)`, nothing invoked yet. -/
def initial (ν : Type) : ProviderState ν :=
  { alerts := [], loading := false, unreadCount := 0, effects := [] }

/-- JavaScript `a || d` for a value that is a string or `undefined`: the empty
string and `undefined` are falsy. -/
def jsOr (a : Option String) (d : String) : String :=
  match a with
  | some v => if v = "" then d else v
  | none => d

/-! ## playAlertSound -/

/-- The three sound sources of `playSequence`. -/
inductive SoundSource where
  | mp3
  | wav
  | beep
deriving DecidableEq, Repr

/-- The body `new Audio(url); audio.volume = 0.8; await audio.play()`: the
attempt is logged, and it throws when the host does not start playback. -/
def audioPlay (canStart : SoundSource → Bool) (src : SoundSource)
    (attempts : List SoundSource) : Except String Unit × List SoundSource :=
  (if canStart src then Except.ok () else Except.error "play() rejected", attempts ++ [src])

/-- The helper `trySound`: `true` when playback started, `false` when the
attempt threw (the error is logged and swallowed). -/
def trySound (canStart : SoundSource → Bool) (src : SoundSource)
    (attempts : List SoundSource) : Bool × List SoundSource :=
  match audioPlay canStart src attempts with
  | (Except.ok _, log) => (true, log)
  | (Except.error _, log) => (false, log)

/-- The async function `playSequence`: MP3, then WAV, then the embedded beep
inside its own `try`/`catch`. Returns how the promise settles and the attempts
made, oldest first. -/
def playSequence (canStart : SoundSource → Bool) : Except String Unit × List SoundSource :=
  match trySound canStart SoundSource.mp3 [] with
  | (true, log) => (Except.ok (), log)
  | (false, log) =>
    match trySound canStart SoundSource.wav log with
    | (true, log) => (Except.ok (), log)
    | (false, log) =>
      match audioPlay canStart SoundSource.beep log with
      | (Except.ok _, log) => (Except.ok (), log)
      | (Except.error _, log) => (Except.ok (), log)

/-- The callback `playAlertSound` seen from the provider state: the invocation
is recorded, no state cell is written. -/
def playAlertSound {ν : Type} (s : ProviderState ν) : ProviderState ν :=
  { s with effects := s.effects ++ [Effect.playAlertSound] }

/-- The call `toast.error(...)` of `handleNewAlert`. -/
def toastError {ν : Type} (s : ProviderState ν) : ProviderState ν :=
  { s with effects := s.effects ++ [Effect.toast] }

/-! ## fetchAlerts -/

/-- The predicate of `newAlerts.some(...)`: the alert is not among the ids of
the closure list and its status is pending. -/
def isNewPending {ν : Type} (alerts : List (Alert ν)) (alert : Alert ν) : Bool :=
  !((alerts.map (fun a => a._id)).contains alert._id) && alert.status == "pending"

/-- The `try` block of `fetchAlerts`. `alerts` is the list the callback closed
over, `response` is what `await getAlerts()` yields. -/
def fetchAlertsTry {ν : Type} (alerts : List (Alert ν)) (response : Response ν)
    (s : ProviderState ν) : Except String Unit × ProviderState ν :=
  let s1 := { s with loading := true }
  match response with
  | Response.rejected message => (Except.error message, s1)
  | Response.resolved success data =>
    match success, data with
    | true, some newAlerts =>
      let hasNewAlerts := newAlerts.any (isNewPending alerts)
      let s2 := if hasNewAlerts && decide (alerts.length > 0) then playAlertSound s1 else s1
      let unread := (newAlerts.filter (fun alert => alert.status == "pending")).length
      (Except.ok (), { s2 with alerts := newAlerts, unreadCount := (unread : Int) })
    | _, _ => (Except.ok (), s1)

/-- The callback `fetchAlerts` with its closure list made explicit: the `try`
block, the `catch` that only logs, and the `finally` that resets `loading`. -/
def fetchAlertsWith {ν : Type} (alerts : List (Alert ν)) (response : Response ν)
    (s : ProviderState ν) : Except String Unit × ProviderState ν :=
  match fetchAlertsTry alerts response s with
  | (Except.ok _, s1) => (Except.ok (), { s1 with loading := false })
  | (Except.error _, s1) => (Except.ok (), { s1 with loading := false })

/-- The callback `fetchAlerts` run in one piece: the closure list is the
current list. -/
def fetchAlerts {ν : Type} (response : Response ν) (s : ProviderState ν) :
    Except String Unit × ProviderState ν :=
  fetchAlertsWith s.alerts response s

/-! ## handleNewAlert, markAsRead, clearAlerts -/

/-- The object literal `newAlert` of `handleNewAlert`. -/
def newAlert {ν : Type} (parseFloat : Option String → ν) (clock : Clock)
    (data : PayloadData) : Alert ν :=
  { _id := jsOr data.alertId (toString clock.now)
    type := jsOr data.type "fire"
    location := { lat := parseFloat data.lat, lng := parseFloat data.lng }
    status := "pending"
    createdAt := jsOr data.timestamp clock.iso }

/-- The callback `handleNewAlert` up to the point where it returns: sound,
toast, the two state updates, and the start of `fetchAlerts()` (which sets
`loading`; its response arrives as a later event). A payload that is `null` or
`undefined` (`none`) makes `payload.data` throw after the sound and the toast. -/
def handleNewAlert {ν : Type} (parseFloat : Option String → ν) (clock : Clock)
    (payload : Option Payload) (s : ProviderState ν) : Except String Unit × ProviderState ν :=
  let s1 := toastError (playAlertSound s)
  match payload with
  | none => (Except.error "TypeError: payload is undefined", s1)
  | some p =>
    let s2 :=
      match p.data with
      | some data =>
        { s1 with alerts := newAlert parseFloat clock data :: s1.alerts
                  unreadCount := s1.unreadCount + 1 }
      | none => s1
    (Except.ok (), { s2 with loading := true })

/-- The callback `markAsRead`. -/
def markAsRead {ν : Type} (alertId : String) (s : ProviderState ν) : ProviderState ν :=
  { s with
    alerts := s.alerts.map
      (fun alert => if alert._id = alertId then { alert with status := "acknowledged" } else alert)
    unreadCount := max 0 (s.unreadCount - 1) }

/-- The callback `clearAlerts`. -/
def clearAlerts {ν : Type} (s : ProviderState ν) : ProviderState ν :=
  { s with alerts := [], unreadCount := 0 }

/-! ## Sequences of events -/

/-- One thing that happens to the provider: a push delivery, the settling of a
`fetchAlerts` call (with the list that call closed over), or a call of one of
the two public mutators. -/
inductive Event (ν : Type) where
  | push (clock : Clock) (payload : Option Payload)
  | poll (alerts : List (Alert ν)) (response : Response ν)
  | markAsRead (alertId : String)
  | clearAlerts
deriving DecidableEq, Repr

/-- The state after one event. -/
def step {ν : Type} (parseFloat : Option String → ν) (s : ProviderState ν) :
    Event ν → ProviderState ν
  | Event.push clock payload => (handleNewAlert parseFloat clock payload s).2
  | Event.poll alerts response => (fetchAlertsWith alerts response s).2
  | Event.markAsRead alertId => markAsRead alertId s
  | Event.clearAlerts => clearAlerts s

/-- The state after a finite sequence of events. -/
def run {ν : Type} (parseFloat : Option String → ν) (s : ProviderState ν) :
    List (Event ν) → ProviderState ν
  | [] => s
  | e :: es => run parseFloat (step parseFloat s e) es

/-- The ids of a list of alerts: `alerts.map(a => a._id)`. -/
def ids {ν : Type} (alerts : List (Alert ν)) : List String :=
  alerts.map (fun a => a._id)

/-- The number of records of the list whose status is pending. -/
def pendingCount {ν : Type} (alerts : List (Alert ν)) : Nat :=
  (alerts.filter (fun alert => alert.status == "pending")).length

/-- The attempts the fallback rule prescribes for an ordered list of sources:
every source up to and including the first one that starts, or all of them when
none starts. -/
def attemptsUpToFirstSuccess (canStart : SoundSource → Bool) : List SoundSource → List SoundSource
  | [] => []
  | src :: rest => if canStart src then [src] else src :: attemptsUpToFirstSuccess canStart rest

/-- The side condition of the dedup theorem for one event in a state: a push
that inserts a record brings an id the list does not hold yet, and a successful
poll brings a snapshot with pairwise distinct ids. -/
def fresh {ν : Type} (parseFloat : Option String → ν) (s : ProviderState ν) : Event ν → Bool
  | Event.push clock (some ⟨some data⟩) =>
    !((ids s.alerts).contains (newAlert parseFloat clock data)._id)
  | Event.poll _ (Response.resolved true (some newAlerts)) => decide (ids newAlerts).Nodup
  | _ => true

/-- The side condition `fresh` along a whole sequence of events. -/
def freshRun {ν : Type} (parseFloat : Option String → ν) :
    ProviderState ν → List (Event ν) → Bool
  | _, [] => true
  | s, e :: es => fresh parseFloat s e && freshRun parseFloat (step parseFloat s e) es

/-- The event does not deliver the id `x` as pending: a push that inserts a
record inserts another id, and a successful poll reports no record with id `x`
in status pending. -/
def keepsRead {ν : Type} (parseFloat : Option String → ν) (x : String) : Event ν → Bool
  | Event.push clock (some ⟨some data⟩) => (newAlert parseFloat clock data)._id != x
  | Event.poll _ (Response.resolved true (some newAlerts)) =>
    newAlerts.all (fun a => !(a._id == x && a.status == "pending"))
  | _ => true

/-- How many times a step invokes the alert sound: the `playAlertSound`
entries the step appends to the trace. -/
def soundsAdded {ν : Type} (parseFloat : Option String → ν) (s : ProviderState ν)
    (e : Event ν) : Nat :=
  (step parseFloat s e).effects.count Effect.playAlertSound
    - s.effects.count Effect.playAlertSound

/-- How many times a step shows the toast: the `toast` entries the step appends
to the trace. -/
def toastsAdded {ν : Type} (parseFloat : Option String → ν) (s : ProviderState ν)
    (e : Event ν) : Nat :=
  (step parseFloat s e).effects.count Effect.toast - s.effects.count Effect.toast

/-- The part of an event that delivers the id `x`: a push that inserts a record
with id `x` is kept as it is; a successful poll is kept with its snapshot cut
down to the records with id `x`; any other event delivers nothing of `x`. -/
def deliveryOf {ν : Type} (parseFloat : Option String → ν) (x : String) :
    Event ν → Option (Event ν)
  | Event.push clock (some ⟨some data⟩) =>
    if (newAlert parseFloat clock data)._id = x
    then some (Event.push clock (some ⟨some data⟩)) else none
  | Event.poll alerts (Response.resolved true (some newAlerts)) =>
    some (Event.poll alerts
      (Response.resolved true (some (newAlerts.filter (fun a => a._id == x)))))
  | _ => none

/-- How many times the provider, in state `s`, invokes the alert sound on
account of `x` at the event `e`: the sound invocations of the step that handles
the part of `e` that delivers `x`. -/
def soundsOnAccount {ν : Type} (parseFloat : Option String → ν) (x : String)
    (s : ProviderState ν) (e : Event ν) : Nat :=
  match deliveryOf parseFloat x e with
  | some d => soundsAdded parseFloat s d
  | none => 0

/-- How many times the provider, in state `s`, shows the toast on account of
`x` at the event `e`. -/
def toastsOnAccount {ν : Type} (parseFloat : Option String → ν) (x : String)
    (s : ProviderState ν) (e : Event ν) : Nat :=
  match deliveryOf parseFloat x e with
  | some d => toastsAdded parseFloat s d
  | none => 0

/-- The sound invocations on account of `x` along a run from `s`. -/
def soundsFor {ν : Type} (parseFloat : Option String → ν) (x : String) :
    ProviderState ν → List (Event ν) → Nat
  | _, [] => 0
  | s, e :: es =>
    soundsOnAccount parseFloat x s e + soundsFor parseFloat x (step parseFloat s e) es

/-- The toast invocations on account of `x` along a run from `s`. -/
def toastsFor {ν : Type} (parseFloat : Option String → ν) (x : String) :
    ProviderState ν → List (Event ν) → Nat
  | _, [] => 0
  | s, e :: es =>
    toastsOnAccount parseFloat x s e + toastsFor parseFloat x (step parseFloat s e) es

/-- A successful poll whose snapshot holds records with id `x` only; every
other event passes. -/
def onlyId {ν : Type} (x : String) : Event ν → Bool
  | Event.poll _ (Response.resolved true (some newAlerts)) =>
    newAlerts.all (fun a => a._id == x)
  | _ => true

/-- The event is a successful poll whose snapshot holds a record with id `x`. -/
def reportsId {ν : Type} (x : String) : Event ν → Bool
  | Event.poll _ (Response.resolved true (some newAlerts)) => (ids newAlerts).contains x
  | _ => false

/-- The event is a push that inserts a record with id `x`. -/
def deliversId {ν : Type} (parseFloat : Option String → ν) (x : String) : Event ν → Bool
  | Event.push clock (some ⟨some data⟩) => (newAlert parseFloat clock data)._id == x
  | _ => false

/-- Every poll of the sequence closed over a list the provider really held: the
current list, or one of the lists `seen` earlier. -/
def coherent {ν : Type} [DecidableEq ν] (parseFloat : Option String → ν) :
    List (List (Alert ν)) → ProviderState ν → List (Event ν) → Bool
  | _, _, [] => true
  | seen, s, e :: es =>
    (match e with
      | Event.poll alerts _ => decide (alerts ∈ s.alerts :: seen)
      | _ => true)
    && coherent parseFloat (s.alerts :: seen) (step parseFloat s e) es

/-! ## Concrete data for the examples -/

/-- A stand-in for `parseFloat` when coordinates play no role. -/
def parseFloatUnit : Option String → Unit :=
  fun _ => ()

/-- A delivery time. -/
def sampleClock : Clock :=
  { now := 1700000000000, iso := "2023-11-14T22:13:20.000Z" }

/-- The payload data `{ alertId, lat: "6.9", lng: "79.8" }`. -/
def sampleData (alertId : String) : PayloadData :=
  { alertId := some alertId, type := none, lat := some "6.9", lng := some "79.8",
    timestamp := none }

/-- The push payload `{ data: { alertId, lat: "6.9", lng: "79.8" } }`. -/
def samplePush (alertId : String) : Option Payload :=
  some { data := some (sampleData alertId) }

/-- The push payload `{ data: { alertId: "", type: "" } }`. -/
def emptyFieldsData : PayloadData :=
  { alertId := some "", type := some "", lat := none, lng := none, timestamp := none }

/-- A backend alert with the given id and status. -/
def sampleAlert (id status : String) : Alert Unit :=
  { _id := id, type := "fire", location := { lat := (), lng := () }, status := status,
    createdAt := "2023-11-14T22:00:00.000Z" }

/-- A state that holds two pending alerts, counted as two unread. -/
def twoPending : ProviderState Unit :=
  { alerts := [sampleAlert "a1" "pending", sampleAlert "a2" "pending"], loading := false,
    unreadCount := 2, effects := [] }

/-- A state that holds one pending alert, as left by a first poll. -/
def onePending : ProviderState Unit :=
  { alerts := [sampleAlert "a0" "pending"], loading := false, unreadCount := 1, effects := [] }

/-! ## Single operations -/

theorem fetchAlertsWith_success {ν : Type} (alerts newAlerts : List (Alert ν))
    (s : ProviderState ν) :
    fetchAlertsWith alerts (Response.resolved true (some newAlerts)) s =
      (Except.ok (),
        { alerts := newAlerts
          loading := false
          unreadCount := (pendingCount newAlerts : Int)
          effects := if newAlerts.any (isNewPending alerts) && decide (alerts.length > 0)
            then s.effects ++ [Effect.playAlertSound] else s.effects }) := by
  unfold fetchAlertsWith fetchAlertsTry
  by_cases h : (newAlerts.any (isNewPending alerts) && decide (alerts.length > 0)) = true
  · simp only [h, if_true]
    rfl
  · simp only [h]
    rfl

theorem fetchAlertsWith_failure {ν : Type} (alerts : List (Alert ν)) (response : Response ν)
    (s : ProviderState ν) (h : ∀ newAlerts, response ≠ Response.resolved true (some newAlerts)) :
    fetchAlertsWith alerts response s = (Except.ok (), { s with loading := false }) := by
  unfold fetchAlertsWith fetchAlertsTry
  cases response with
  | rejected message => rfl
  | resolved success data =>
    cases success with
    | false => cases data <;> rfl
    | true =>
      cases data with
      | none => rfl
      | some newAlerts => exact absurd rfl (h newAlerts)

/-- C8 (poll failure leaves state untouched): when `getAlerts` rejects, or
resolves to a response that is not a success carrying data, `fetchAlerts`
(whatever list it closed over) settles normally, leaves `alerts` and
`unreadCount` as they were, and itself invokes neither the sound nor the toast
(a toast the HTTP client shows inside `getAlerts` is not part of this
callback). -/
theorem fetchAlerts_failure_untouched {ν : Type} (alerts : List (Alert ν))
    (response : Response ν) (s : ProviderState ν)
    (h : ∀ newAlerts, response ≠ Response.resolved true (some newAlerts)) :
    (fetchAlertsWith alerts response s).1 = Except.ok () ∧
    (fetchAlertsWith alerts response s).2.alerts = s.alerts ∧
    (fetchAlertsWith alerts response s).2.unreadCount = s.unreadCount ∧
    (fetchAlertsWith alerts response s).2.effects = s.effects := by
  rw [fetchAlertsWith_failure alerts response s h]
  exact ⟨rfl, rfl, rfl, rfl⟩

/-- Witness for C8: a rejected fetch against a state with two pending alerts. -/
theorem fetchAlerts_failure_untouched_witness :
    (fetchAlertsWith twoPending.alerts (Response.rejected "Network Error") twoPending).1
        = Except.ok () ∧
    (fetchAlertsWith twoPending.alerts (Response.rejected "Network Error") twoPending).2.alerts
        = twoPending.alerts ∧
    (fetchAlertsWith twoPending.alerts (Response.rejected "Network Error")
        twoPending).2.unreadCount = twoPending.unreadCount ∧
    (fetchAlertsWith twoPending.alerts (Response.rejected "Network Error") twoPending).2.effects
        = twoPending.effects :=
  fetchAlerts_failure_untouched twoPending.alerts (Response.rejected "Network Error") twoPending
    (fun _ h => Response.noConfusion h)

/-- C6 (no false barrage on cold start): a successful poll of `N` pending
alerts against an empty list settles normally, leaves the list equal to the
snapshot with exactly `N` records, sets `unreadCount` to `N`, and invokes
neither the sound nor the toast. Distinct ids are not even needed. -/
theorem fetchAlerts_cold_start {ν : Type} (N : Nat) (newAlerts : List (Alert ν))
    (s : ProviderState ν) (hs : s.alerts = []) (hN : newAlerts.length = N)
    (hp : ∀ a ∈ newAlerts, a.status = "pending") :
    (fetchAlerts (Response.resolved true (some newAlerts)) s).1 = Except.ok () ∧
    (fetchAlerts (Response.resolved true (some newAlerts)) s).2.alerts = newAlerts ∧
    (fetchAlerts (Response.resolved true (some newAlerts)) s).2.alerts.length = N ∧
    (fetchAlerts (Response.resolved true (some newAlerts)) s).2.unreadCount = (N : Int) ∧
    (fetchAlerts (Response.resolved true (some newAlerts)) s).2.effects = s.effects := by
  have hcount : pendingCount newAlerts = N := by
    unfold pendingCount
    rw [List.filter_eq_self.mpr (fun a ha => by simp [hp a ha])]
    exact hN
  unfold fetchAlerts
  rw [fetchAlertsWith_success, hs]
  refine ⟨rfl, rfl, hN, ?_, ?_⟩
  · show (pendingCount newAlerts : Int) = N
    rw [hcount]
  · simp

/-- Witness for C6: a first poll of two pending alerts after mount. -/
theorem fetchAlerts_cold_start_witness :
    (fetchAlerts (Response.resolved true (some twoPending.alerts)) (initial Unit)).1
        = Except.ok () ∧
    (fetchAlerts (Response.resolved true (some twoPending.alerts)) (initial Unit)).2.alerts
        = twoPending.alerts ∧
    (fetchAlerts (Response.resolved true (some twoPending.alerts))
        (initial Unit)).2.alerts.length = 2 ∧
    (fetchAlerts (Response.resolved true (some twoPending.alerts))
        (initial Unit)).2.unreadCount = ((2 : Nat) : Int) ∧
    (fetchAlerts (Response.resolved true (some twoPending.alerts)) (initial Unit)).2.effects
        = (initial Unit).effects :=
  fetchAlerts_cold_start 2 twoPending.alerts (initial Unit) rfl rfl (by decide)

/-- C4 as stated fails: the list holds `a2` (pushed) and `a1`; a successful
poll whose snapshot omits `a2` removes `a2` from the list. -/
theorem fetchAlerts_drops_omitted :
    sampleAlert "a2" "pending" ∈
      ({ twoPending with
          alerts := [sampleAlert "a2" "pending", sampleAlert "a1" "pending"] } :
        ProviderState Unit).alerts ∧
    sampleAlert "a2" "pending" ∉
      (fetchAlerts (Response.resolved true (some [sampleAlert "a1" "pending"]))
        { twoPending with
          alerts := [sampleAlert "a2" "pending", sampleAlert "a1" "pending"] }).2.alerts := by
  decide

/-- C4 amended (a successful poll replaces the list): after a successful poll
the list is exactly the snapshot, so a record that was in the list before the
poll is in it afterwards when, and only when, the snapshot holds it. -/
theorem fetchAlerts_replaces_list {ν : Type} (alerts newAlerts : List (Alert ν))
    (s : ProviderState ν) :
    (fetchAlertsWith alerts (Response.resolved true (some newAlerts)) s).2.alerts = newAlerts ∧
    ∀ r ∈ s.alerts,
      (r ∈ (fetchAlertsWith alerts (Response.resolved true (some newAlerts)) s).2.alerts
        ↔ r ∈ newAlerts) := by
  rw [fetchAlertsWith_success]
  exact ⟨rfl, fun _ _ => Iff.rfl⟩

theorem playSequence_attempts (canStart : SoundSource → Bool) :
    playSequence canStart =
      (Except.ok (),
        attemptsUpToFirstSuccess canStart
          [SoundSource.mp3, SoundSource.wav, SoundSource.beep]) := by
  unfold playSequence trySound audioPlay attemptsUpToFirstSuccess attemptsUpToFirstSuccess
    attemptsUpToFirstSuccess attemptsUpToFirstSuccess
  cases h1 : canStart SoundSource.mp3 <;> cases h2 : canStart SoundSource.wav <;>
    cases h3 : canStart SoundSource.beep <;> simp

/-- C10 (audio fallback order): whatever sources start, `playSequence` settles
without an error; its attempts are, in the order MP3, WAV, beep, exactly the
sources up to and including the first that starts (all three when none does);
so MP3 is always attempted first, WAV is attempted exactly when MP3 failed, the
beep exactly when both failed; and `playAlertSound` leaves `alerts` and
`unreadCount` as they were. -/
theorem playAlertSound_fallback_order {ν : Type} (canStart : SoundSource → Bool)
    (s : ProviderState ν) :
    (playSequence canStart).1 = Except.ok () ∧
    (playSequence canStart).2 =
      attemptsUpToFirstSuccess canStart [SoundSource.mp3, SoundSource.wav, SoundSource.beep] ∧
    (playSequence canStart).2 <+: [SoundSource.mp3, SoundSource.wav, SoundSource.beep] ∧
    (playSequence canStart).2.head? = some SoundSource.mp3 ∧
    (SoundSource.wav ∈ (playSequence canStart).2 ↔ canStart SoundSource.mp3 = false) ∧
    (SoundSource.beep ∈ (playSequence canStart).2 ↔
      (canStart SoundSource.mp3 = false ∧ canStart SoundSource.wav = false)) ∧
    (playAlertSound s).alerts = s.alerts ∧
    (playAlertSound s).unreadCount = s.unreadCount := by
  rw [playSequence_attempts]
  refine ⟨rfl, rfl, ?_, ?_, ?_, ?_, rfl, rfl⟩ <;>
    unfold attemptsUpToFirstSuccess attemptsUpToFirstSuccess attemptsUpToFirstSuccess
      attemptsUpToFirstSuccess <;>
    cases h1 : canStart SoundSource.mp3 <;> cases h2 : canStart SoundSource.wav <;>
    cases h3 : canStart SoundSource.beep <;> simp [List.IsPrefix]

/-- C9 as stated fails: a payload whose `alertId` and `type` are present but
empty gets the timestamp as id and `fire` as kind, not the fields it carries. -/
theorem handleNewAlert_empty_fields :
    emptyFieldsData.alertId = some "" ∧ emptyFieldsData.type = some "" ∧
    (handleNewAlert parseFloatUnit sampleClock (some { data := some emptyFieldsData })
        (initial Unit)).2.alerts.map (fun a => (a._id, a.type))
      = [("1700000000000", "fire")] := by
  decide

/-- C9 amended (push conversion): for a payload that carries a data object,
`handleNewAlert` returns normally and puts exactly one new record in front of
the previous list, which follows unchanged; the record is pending; its id is
`data.alertId` when that field is present and not the empty string, and the
decimal delivery timestamp when the field is missing or empty; its kind is
`data.type` when present and not empty, and `fire` when missing or empty. The
sound and the toast are each invoked once and `unreadCount` grows by one. -/
theorem handleNewAlert_conversion {ν : Type} (parseFloat : Option String → ν) (clock : Clock)
    (payload : Payload) (data : PayloadData) (s : ProviderState ν)
    (h : payload.data = some data) :
    (handleNewAlert parseFloat clock (some payload) s).1 = Except.ok () ∧
    (handleNewAlert parseFloat clock (some payload) s).2.alerts
      = newAlert parseFloat clock data :: s.alerts ∧
    (newAlert parseFloat clock data).status = "pending" ∧
    (∀ v, data.alertId = some v → v ≠ "" → (newAlert parseFloat clock data)._id = v) ∧
    (data.alertId = none ∨ data.alertId = some "" →
      (newAlert parseFloat clock data)._id = toString clock.now) ∧
    (∀ v, data.type = some v → v ≠ "" → (newAlert parseFloat clock data).type = v) ∧
    (data.type = none ∨ data.type = some "" → (newAlert parseFloat clock data).type = "fire") ∧
    (handleNewAlert parseFloat clock (some payload) s).2.unreadCount = s.unreadCount + 1 ∧
    (handleNewAlert parseFloat clock (some payload) s).2.effects
      = s.effects ++ [Effect.playAlertSound, Effect.toast] := by
  refine ⟨rfl, ?_, rfl, ?_, ?_, ?_, ?_, ?_, ?_⟩
  · simp [handleNewAlert, h, toastError, playAlertSound]
  · intro v hv hne
    simp [newAlert, jsOr, hv, hne]
  · rintro (hv | hv) <;> simp [newAlert, jsOr, hv]
  · intro v hv hne
    simp [newAlert, jsOr, hv, hne]
  · rintro (hv | hv) <;> simp [newAlert, jsOr, hv]
  · simp [handleNewAlert, h, toastError, playAlertSound]
  · simp [handleNewAlert, h, toastError, playAlertSound]

/-- Witness for C9 amended: the push of `a2` against one pending alert. -/
theorem handleNewAlert_conversion_witness :
    (handleNewAlert parseFloatUnit sampleClock (samplePush "a2") onePending).2.alerts.map
        (fun a => (a._id, a.type, a.status))
      = [("a2", "fire", "pending"), ("a0", "fire", "pending")] := by
  have h := (handleNewAlert_conversion parseFloatUnit sampleClock
    { data := some (sampleData "a2") } (sampleData "a2") onePending rfl).2.1
  unfold samplePush
  rw [h]
  decide

/-- C2 fails on the code: after the pushes of `a1` and `a2`, reading `a1`
twice leaves `a2` pending while `unreadCount` is already 0. -/
theorem unreadCount_drifts_after_double_read :
    (run parseFloatUnit (initial Unit)
      [Event.push sampleClock (samplePush "a1"), Event.push sampleClock (samplePush "a2"),
        Event.markAsRead "a1", Event.markAsRead "a1"]).unreadCount = 0 ∧
    pendingCount (run parseFloatUnit (initial Unit)
      [Event.push sampleClock (samplePush "a1"), Event.push sampleClock (samplePush "a2"),
        Event.markAsRead "a1", Event.markAsRead "a1"]).alerts = 1 := by
  decide

/-- C5 fails on the code: with two pending alerts and `unreadCount` 2, reading
`a1` twice leaves `a1` acknowledged and the list as after the first call, but
`unreadCount` is 0, two lower and not one. -/
theorem markAsRead_twice_decrements_twice :
    (markAsRead "a1" (markAsRead "a1" twoPending)).alerts.map (fun a => (a._id, a.status))
      = [("a1", "acknowledged"), ("a2", "pending")] ∧
    (markAsRead "a1" (markAsRead "a1" twoPending)).alerts = (markAsRead "a1" twoPending).alerts ∧
    (markAsRead "a1" twoPending).unreadCount = 1 ∧
    (markAsRead "a1" (markAsRead "a1" twoPending)).unreadCount = 0 := by
  decide

/-! ## Sequences of events -/

theorem step_poll_success_alerts {ν : Type} (parseFloat : Option String → ν)
    (s : ProviderState ν) (alerts newAlerts : List (Alert ν)) :
    (step parseFloat s
      (Event.poll alerts (Response.resolved true (some newAlerts)))).alerts = newAlerts := by
  show (fetchAlertsWith alerts (Response.resolved true (some newAlerts)) s).2.alerts = newAlerts
  rw [fetchAlertsWith_success]

theorem ids_markAsRead {ν : Type} (alertId : String) (s : ProviderState ν) :
    ids (markAsRead alertId s).alerts = ids s.alerts := by
  unfold ids markAsRead
  simp only [List.map_map]
  apply List.map_congr_left
  intro a _
  by_cases h : a._id = alertId <;> simp [h]

theorem step_preserves_nodup {ν : Type} (parseFloat : Option String → ν)
    (s : ProviderState ν) (e : Event ν) (hs : (ids s.alerts).Nodup)
    (he : fresh parseFloat s e = true) : (ids (step parseFloat s e).alerts).Nodup := by
  rcases e with ⟨clock, (_ | ⟨⟨(_ | data)⟩⟩)⟩ |
    ⟨alerts, (msg | ⟨(_ | _), (_ | newAlerts)⟩)⟩ | alertId | _
  · exact hs
  · exact hs
  · show (ids (newAlert parseFloat clock data :: s.alerts)).Nodup
    have he2 : (newAlert parseFloat clock data)._id ∉ ids s.alerts := by
      simpa [fresh] using he
    simp only [ids, List.map_cons, List.nodup_cons]
    exact ⟨he2, hs⟩
  · exact hs
  · exact hs
  · exact hs
  · exact hs
  · rw [step_poll_success_alerts]
    simpa [fresh] using he
  · show (ids (markAsRead alertId s).alerts).Nodup
    rw [ids_markAsRead]
    exact hs
  · exact List.nodup_nil

theorem run_preserves_nodup {ν : Type} (parseFloat : Option String → ν)
    (events : List (Event ν)) :
    ∀ s : ProviderState ν, (ids s.alerts).Nodup → freshRun parseFloat s events = true →
      (ids (run parseFloat s events).alerts).Nodup := by
  induction events with
  | nil => intro s hs _; exact hs
  | cons e es ih =>
    intro s hs h
    simp only [freshRun, Bool.and_eq_true] at h
    exact ih (step parseFloat s e) (step_preserves_nodup parseFloat s e hs h.1) h.2

/-- C1 as stated fails: two push deliveries of the id `a1` after mount leave
two records with that id in the list. -/
theorem push_twice_duplicates :
    ((run parseFloatUnit (initial Unit)
        [Event.push sampleClock (samplePush "a1"),
          Event.push sampleClock (samplePush "a1")]).alerts.filter
      (fun a => a._id = "a1")).length = 2 := by
  decide

/-- C1 amended (ids stay distinct while deliveries are fresh): starting from
the empty list, after every finite sequence of events in which each push that
inserts a record brings an id the list does not hold at that moment and each
successful poll brings a snapshot with pairwise distinct ids, no two records of
the list share an `_id`. -/
theorem ids_nodup_of_fresh_run {ν : Type} (parseFloat : Option String → ν)
    (events : List (Event ν)) (h : freshRun parseFloat (initial ν) events = true) :
    (ids (run parseFloat (initial ν) events).alerts).Nodup :=
  run_preserves_nodup parseFloat events (initial ν) List.nodup_nil h

/-- Witness for C1 amended: a poll of `a1`, `a2`, then the push of `a3`, then
the same poll again. -/
theorem ids_nodup_of_fresh_run_witness :
    (ids (run parseFloatUnit (initial Unit)
      [Event.poll [] (Response.resolved true (some twoPending.alerts)),
        Event.push sampleClock (samplePush "a3"),
        Event.poll twoPending.alerts (Response.resolved true (some twoPending.alerts))]).alerts
      ).Nodup :=
  ids_nodup_of_fresh_run parseFloatUnit
    [Event.poll [] (Response.resolved true (some twoPending.alerts)),
      Event.push sampleClock (samplePush "a3"),
      Event.poll twoPending.alerts (Response.resolved true (some twoPending.alerts))]
    (by decide)

theorem step_keeps_read {ν : Type} (parseFloat : Option String → ν) (x : String)
    (s : ProviderState ν) (e : Event ν)
    (hs : ∀ r ∈ s.alerts, r._id = x → r.status ≠ "pending")
    (he : keepsRead parseFloat x e = true) :
    ∀ r ∈ (step parseFloat s e).alerts, r._id = x → r.status ≠ "pending" := by
  rcases e with ⟨clock, (_ | ⟨⟨(_ | data)⟩⟩)⟩ |
    ⟨alerts, (msg | ⟨(_ | _), (_ | newAlerts)⟩)⟩ | alertId | _
  · exact hs
  · exact hs
  · intro r hr hx
    have hr' : r ∈ newAlert parseFloat clock data :: s.alerts := hr
    rcases List.mem_cons.mp hr' with h | h
    · subst h
      simp [keepsRead] at he
      exact absurd hx he
    · exact hs r h hx
  · exact hs
  · exact hs
  · exact hs
  · exact hs
  · rw [step_poll_success_alerts]
    intro r hr hx hp
    simp only [keepsRead, List.all_eq_true] at he
    have := he r hr
    simp [hx, hp] at this
  · intro r hr hx
    have hr' : r ∈ s.alerts.map (fun alert =>
        if alert._id = alertId then { alert with status := "acknowledged" } else alert) := hr
    obtain ⟨a, ha, rfl⟩ := List.mem_map.mp hr'
    by_cases h : a._id = alertId
    · simp [h]
    · simp only [h, if_false] at hx ⊢
      exact hs a ha hx
  · intro r hr
    exact absurd hr (List.not_mem_nil r)

theorem run_keeps_read {ν : Type} (parseFloat : Option String → ν) (x : String)
    (events : List (Event ν)) :
    ∀ s : ProviderState ν, (∀ r ∈ s.alerts, r._id = x → r.status ≠ "pending") →
      (∀ e ∈ events, keepsRead parseFloat x e = true) →
      ∀ r ∈ (run parseFloat s events).alerts, r._id = x → r.status ≠ "pending" := by
  induction events with
  | nil => intro s hs _; exact hs
  | cons e es ih =>
    intro s hs h
    exact ih (step parseFloat s e)
      (step_keeps_read parseFloat x s e hs (h e (List.mem_cons_self e es)))
      (fun e' he' => h e' (List.mem_cons_of_mem e he'))

/-- C7 as stated fails: `a1` is pushed and read, so its record is
acknowledged; a later successful poll that still reports `a1` as pending puts
the record back to pending. -/
theorem poll_reverts_acknowledged :
    (run parseFloatUnit (initial Unit)
      [Event.push sampleClock (samplePush "a1"), Event.markAsRead "a1"]).alerts.map
        (fun a => (a._id, a.status)) = [("a1", "acknowledged")] ∧
    (run parseFloatUnit (initial Unit)
      [Event.push sampleClock (samplePush "a1"), Event.markAsRead "a1",
        Event.poll [] (Response.resolved true (some [sampleAlert "a1" "pending"]))]).alerts.map
        (fun a => (a._id, a.status)) = [("a1", "pending")] := by
  decide

/-- C7 amended (an acknowledged id stays out of pending unless delivered as
pending again): from a state in which every record with id `x` is
acknowledged, after every finite sequence of push, poll, markAsRead and
clearAlerts events in which no push inserts a record with id `x` and no
successful poll reports a record with id `x` as pending, no record with id `x`
in the list is pending. -/
theorem acknowledged_stays_read {ν : Type} (parseFloat : Option String → ν) (x : String)
    (s : ProviderState ν) (events : List (Event ν))
    (hs : ∀ r ∈ s.alerts, r._id = x → r.status = "acknowledged")
    (he : ∀ e ∈ events, keepsRead parseFloat x e = true) :
    ∀ r ∈ (run parseFloat s events).alerts, r._id = x → r.status ≠ "pending" :=
  run_keeps_read parseFloat x events s
    (fun r hr hx hp => by
      have h := hs r hr hx
      rw [hp] at h
      exact absurd h (by decide))
    he

/-- Witness for C7 amended: `a1` is acknowledged, then `a3` is pushed, `a1` is
read again and a poll reports `a1` as acknowledged and `a2` as pending. -/
theorem acknowledged_stays_read_witness :
    sampleAlert "a1" "acknowledged" ∈ (run parseFloatUnit (markAsRead "a1" twoPending)
        [Event.push sampleClock (samplePush "a3"), Event.markAsRead "a1",
          Event.poll [] (Response.resolved true
            (some [sampleAlert "a1" "acknowledged", sampleAlert "a2" "pending"]))]).alerts ∧
    (sampleAlert "a1" "acknowledged").status ≠ "pending" :=
  ⟨by decide,
    acknowledged_stays_read parseFloatUnit "a1" (markAsRead "a1" twoPending)
      [Event.push sampleClock (samplePush "a3"), Event.markAsRead "a1",
        Event.poll [] (Response.resolved true
          (some [sampleAlert "a1" "acknowledged", sampleAlert "a2" "pending"]))]
      (by decide) (by decide) (sampleAlert "a1" "acknowledged") (by decide) rfl⟩

theorem fetchAlertsWith_silent {ν : Type} (x : String) (alerts newAlerts : List (Alert ν))
    (s : ProviderState ν) (hc : alerts = [] ∨ x ∈ ids alerts)
    (hall : ∀ a ∈ newAlerts, a._id = x) :
    (fetchAlertsWith alerts (Response.resolved true (some newAlerts)) s).2.effects
      = s.effects := by
  rw [fetchAlertsWith_success]
  rcases hc with h | h
  · simp [h]
  · have hany : newAlerts.any (isNewPending alerts) = false := by
      rw [List.any_eq_false]
      intro a ha
      have hx : a._id ∈ List.map (fun a => a._id) alerts := by
        rw [hall a ha]
        exact h
      simp [isNewPending, hx]
    simp [hany]

theorem step_push_effects {ν : Type} (parseFloat : Option String → ν) (s : ProviderState ν)
    (clock : Clock) (data : PayloadData) :
    (step parseFloat s (Event.push clock (some ⟨some data⟩))).effects
      = (s.effects ++ [Effect.playAlertSound]) ++ [Effect.toast] :=
  rfl

theorem step_effects_on_account {ν : Type} (parseFloat : Option String → ν) (x : String)
    (s : ProviderState ν) (e : Event ν)
    (he : reportsId x e = true ∨ deliversId parseFloat x e = true)
    (hc : ∀ alerts response, e = Event.poll alerts response → alerts = [] ∨ x ∈ ids alerts) :
    soundsOnAccount parseFloat x s e = (if deliversId parseFloat x e then 1 else 0) ∧
    toastsOnAccount parseFloat x s e = (if deliversId parseFloat x e then 1 else 0) ∧
    (step parseFloat s e).effects.count Effect.toast =
      s.effects.count Effect.toast + (if deliversId parseFloat x e then 1 else 0) ∧
    (onlyId x e = true →
      (step parseFloat s e).effects.count Effect.playAlertSound =
        s.effects.count Effect.playAlertSound
          + (if deliversId parseFloat x e then 1 else 0)) := by
  rcases e with ⟨clock, (_ | ⟨⟨(_ | data)⟩⟩)⟩ |
    ⟨alerts, (msg | ⟨(_ | _), (_ | newAlerts)⟩)⟩ | alertId | _ <;>
    simp [reportsId, deliversId] at he
  · have hd : deliversId parseFloat x (Event.push clock (some ⟨some data⟩)) = true := by
      simp [deliversId, he]
    have hdel : deliveryOf parseFloat x (Event.push clock (some ⟨some data⟩))
        = some (Event.push clock (some ⟨some data⟩)) := by
      simp [deliveryOf, he]
    refine ⟨?_, ?_, ?_, ?_⟩
    · simp only [soundsOnAccount, hdel, soundsAdded, step_push_effects, hd, if_true]
      simp [List.count_append]
    · simp only [toastsOnAccount, hdel, toastsAdded, step_push_effects, hd, if_true]
      simp [List.count_append]
    · simp only [step_push_effects, hd, if_true]
      simp [List.count_append]
    · intro _
      simp only [step_push_effects, hd, if_true]
      simp [List.count_append]
  · have hclos := hc alerts _ rfl
    have hd : deliversId parseFloat x
        (Event.poll alerts (Response.resolved true (some newAlerts))) = false := rfl
    have hcut : ∀ a ∈ newAlerts.filter (fun a => a._id == x), a._id = x := by
      intro a ha
      simpa using (List.mem_filter.mp ha).2
    have hpart : (step parseFloat s (Event.poll alerts (Response.resolved true
        (some (newAlerts.filter (fun a => a._id == x)))))).effects = s.effects :=
      fetchAlertsWith_silent x alerts _ s hclos hcut
    refine ⟨?_, ?_, ?_, ?_⟩
    · simp only [soundsOnAccount, deliveryOf, soundsAdded, hpart, hd]
      simp
    · simp only [toastsOnAccount, deliveryOf, toastsAdded, hpart, hd]
      simp
    · show (fetchAlertsWith alerts (Response.resolved true (some newAlerts)) s).2.effects.count
        Effect.toast = _
      rw [fetchAlertsWith_success, hd]
      split <;> simp [List.count_append]
    · intro honly
      have hall : ∀ a ∈ newAlerts, a._id = x := by
        intro a ha
        simp only [onlyId, List.all_eq_true] at honly
        simpa using honly a ha
      show (fetchAlertsWith alerts (Response.resolved true (some newAlerts)) s).2.effects.count
        Effect.playAlertSound = _
      rw [fetchAlertsWith_silent x alerts newAlerts s hclos hall, hd]
      simp

theorem effects_invariant_run {ν : Type} [DecidableEq ν] (parseFloat : Option String → ν)
    (x : String) (events : List (Event ν)) :
    ∀ (seen : List (List (Alert ν))) (s : ProviderState ν),
      (∀ l ∈ s.alerts :: seen, l = [] ∨ x ∈ ids l) →
      (∀ e ∈ events, reportsId x e = true ∨ deliversId parseFloat x e = true) →
      coherent parseFloat seen s events = true →
      soundsFor parseFloat x s events = events.countP (deliversId parseFloat x) ∧
      toastsFor parseFloat x s events = events.countP (deliversId parseFloat x) ∧
      (run parseFloat s events).effects.count Effect.toast =
        s.effects.count Effect.toast + events.countP (deliversId parseFloat x) ∧
      ((∀ e ∈ events, onlyId x e = true) →
        (run parseFloat s events).effects.count Effect.playAlertSound =
          s.effects.count Effect.playAlertSound
            + events.countP (deliversId parseFloat x)) := by
  induction events with
  | nil => intro seen s _ _ _; exact ⟨rfl, rfl, rfl, fun _ => rfl⟩
  | cons e es ih =>
    intro seen s hinv hev hco
    have he := hev e (List.mem_cons_self e es)
    simp only [coherent, Bool.and_eq_true] at hco
    have hc : ∀ alerts response, e = Event.poll alerts response →
        alerts = [] ∨ x ∈ ids alerts := by
      intro alerts response heq
      subst heq
      exact hinv alerts (by simpa using hco.1)
    have hnext : ∀ l ∈ (step parseFloat s e).alerts :: s.alerts :: seen, l = [] ∨ x ∈ ids l := by
      intro l hl
      rcases List.mem_cons.mp hl with h | h
      · right
        subst h
        rcases e with ⟨clock, (_ | ⟨⟨(_ | data)⟩⟩)⟩ |
          ⟨alerts, (msg | ⟨(_ | _), (_ | newAlerts)⟩)⟩ | alertId | _ <;>
          simp [reportsId, deliversId] at he
        · show x ∈ ids (newAlert parseFloat clock data :: s.alerts)
          simp [ids, he]
        · rw [step_poll_success_alerts]
          exact he
      · exact hinv l h
    obtain ⟨ih1, ih2, ih3, ih4⟩ := ih (s.alerts :: seen) (step parseFloat s e) hnext
      (fun e' he' => hev e' (List.mem_cons_of_mem e he')) hco.2
    obtain ⟨h1, h2, h3, h4⟩ := step_effects_on_account parseFloat x s e he hc
    refine ⟨?_, ?_, ?_, ?_⟩
    · show soundsOnAccount parseFloat x s e + soundsFor parseFloat x (step parseFloat s e) es = _
      rw [h1, ih1, List.countP_cons]
      omega
    · show toastsOnAccount parseFloat x s e + toastsFor parseFloat x (step parseFloat s e) es = _
      rw [h2, ih2, List.countP_cons]
      omega
    · show (run parseFloat (step parseFloat s e) es).effects.count Effect.toast = _
      rw [ih3, h3, List.countP_cons]
      omega
    · intro honly
      show (run parseFloat (step parseFloat s e) es).effects.count Effect.playAlertSound = _
      rw [ih4 (fun e' he' => honly e' (List.mem_cons_of_mem e he')),
        h4 (honly e (List.mem_cons_self e es)), List.countP_cons]
      omega

theorem countP_deliversId_one {ν : Type} (parseFloat : Option String → ν) (x : String)
    (before after : List (Event ν)) (clock : Clock) (data : PayloadData)
    (hid : (newAlert parseFloat clock data)._id = x)
    (hb : ∀ e ∈ before, reportsId x e = true) (ha : ∀ e ∈ after, reportsId x e = true) :
    (before ++ Event.push clock (some ⟨some data⟩) :: after).countP
      (deliversId parseFloat x) = 1 := by
  have hzero : ∀ l : List (Event ν), (∀ e ∈ l, reportsId x e = true) →
      l.countP (deliversId parseFloat x) = 0 := by
    intro l hl
    rw [List.countP_eq_zero]
    intro e he
    have := hl e he
    rcases e with ⟨clock, (_ | ⟨⟨(_ | data)⟩⟩)⟩ |
      ⟨alerts, (msg | ⟨(_ | _), (_ | newAlerts)⟩)⟩ | alertId | _ <;>
      simp [reportsId, deliversId] at this ⊢
  rw [List.countP_append, List.countP_cons, hzero before hb, hzero after ha]
  simp [deliversId, hid]

/-- The `fetchAlerts()` that `handleNewAlert` starts closes over the list as it
was before the push: from the list `a0`, the push of `x` plays the sound and
shows the toast, and when that fetch settles with `x` and `a0` it plays the
sound once more. -/
theorem stale_closure_rings_again :
    (run parseFloatUnit onePending
      [Event.push sampleClock (samplePush "x"),
        Event.poll onePending.alerts (Response.resolved true
          (some [sampleAlert "x" "pending", sampleAlert "a0" "pending"]))]).effects
      = [Effect.playAlertSound, Effect.toast, Effect.playAlertSound] := by
  decide

/-- C3 as stated fails: the list holds `a0` (the state a first poll of `a0`
leaves after mount); a poll that closed over this list reports the new pending
alert `x` and plays the sound, also when its snapshot is cut down to `x`; the
push of `x` then plays it again. One push and one poll that reports `x`, two
sound invocations on account of `x`, and two sound entries in the trace. -/
theorem sound_twice_poll_then_push :
    onePending
      = (fetchAlerts (Response.resolved true (some [sampleAlert "a0" "pending"]))
          (initial Unit)).2 ∧
    reportsId "x" (Event.poll onePending.alerts (Response.resolved true
      (some [sampleAlert "x" "pending", sampleAlert "a0" "pending"]))) = true ∧
    soundsFor parseFloatUnit "x" onePending
      [Event.poll onePending.alerts (Response.resolved true
          (some [sampleAlert "x" "pending", sampleAlert "a0" "pending"])),
        Event.push sampleClock (samplePush "x")] = 2 ∧
    (run parseFloatUnit onePending
      [Event.poll onePending.alerts (Response.resolved true
          (some [sampleAlert "x" "pending"])),
        Event.push sampleClock (samplePush "x")]).effects
      = [Effect.playAlertSound, Effect.playAlertSound, Effect.toast] ∧
    (run parseFloatUnit onePending
      [Event.poll onePending.alerts (Response.resolved true
          (some [sampleAlert "x" "pending", sampleAlert "a0" "pending"])),
        Event.push sampleClock (samplePush "x")]).effects
      = [Effect.playAlertSound, Effect.playAlertSound, Effect.toast] := by
  decide

/-- C3 amended (effect-once from an empty list or a list that knows the id):
start from a state whose list is empty or already holds a record with id `x`,
and take any interleaving of one push that inserts `x` with any number of
successful polls whose snapshots hold `x`, each poll having closed over the
current list or a list held earlier in the interleaving. Then the provider
invokes the sound exactly once and shows the toast exactly once on account of
`x`: the invocations are read off the trace of the steps that handle what each
event delivers of `x` (the push itself, each snapshot cut down to `x`). The
trace of the run gains exactly one toast, and, when the snapshots hold nothing
but `x`, exactly one sound. -/
theorem effect_once_when_known {ν : Type} [DecidableEq ν] (parseFloat : Option String → ν)
    (x : String) (s : ProviderState ν) (before after : List (Event ν)) (clock : Clock)
    (data : PayloadData)
    (hs : s.alerts = [] ∨ x ∈ ids s.alerts)
    (hid : (newAlert parseFloat clock data)._id = x)
    (hb : ∀ e ∈ before, reportsId x e = true) (ha : ∀ e ∈ after, reportsId x e = true)
    (hco : coherent parseFloat [] s
      (before ++ Event.push clock (some ⟨some data⟩) :: after) = true) :
    soundsFor parseFloat x s (before ++ Event.push clock (some ⟨some data⟩) :: after) = 1 ∧
    toastsFor parseFloat x s (before ++ Event.push clock (some ⟨some data⟩) :: after) = 1 ∧
    (run parseFloat s (before ++ Event.push clock (some ⟨some data⟩) :: after)).effects.count
        Effect.toast = s.effects.count Effect.toast + 1 ∧
    ((∀ e ∈ before ++ after, onlyId x e = true) →
      (run parseFloat s
          (before ++ Event.push clock (some ⟨some data⟩) :: after)).effects.count
        Effect.playAlertSound = s.effects.count Effect.playAlertSound + 1) := by
  have hone := countP_deliversId_one parseFloat x before after clock data hid hb ha
  have hev : ∀ e ∈ before ++ Event.push clock (some ⟨some data⟩) :: after,
      reportsId x e = true ∨ deliversId parseFloat x e = true := by
    intro e he
    rcases List.mem_append.mp he with h | h
    · exact Or.inl (hb e h)
    · rcases List.mem_cons.mp h with h | h
      · subst h
        right
        simp [deliversId, hid]
      · exact Or.inl (ha e h)
  have hinv : ∀ l ∈ s.alerts :: ([] : List (List (Alert ν))), l = [] ∨ x ∈ ids l := by
    intro l hl
    have : l = s.alerts := by simpa using hl
    rw [this]
    exact hs
  obtain ⟨h1, h2, h3, h4⟩ := effects_invariant_run parseFloat x _ [] s hinv hev hco
  refine ⟨?_, ?_, ?_, ?_⟩
  · rw [h1, hone]
  · rw [h2, hone]
  · rw [h3, hone]
  · intro honly
    rw [h4 ?_, hone]
    intro e he
    rcases List.mem_append.mp he with h | h
    · exact honly e (List.mem_append_left after h)
    · rcases List.mem_cons.mp h with h | h
      · subst h
        rfl
      · exact honly e (List.mem_append_right before h)

/-- Witness for C3 amended: after mount, a poll reports `a1`, then `a1` is
pushed, then the fetch that closed over the list before the push reports `a1`
again: one sound and one toast on account of `a1`, and the trace is sound,
toast. -/
theorem effect_once_when_known_witness :
    soundsFor parseFloatUnit "a1" (initial Unit)
      ([Event.poll [] (Response.resolved true (some [sampleAlert "a1" "pending"]))] ++
        Event.push sampleClock (some ⟨some (sampleData "a1")⟩) ::
        [Event.poll [sampleAlert "a1" "pending"]
          (Response.resolved true (some [sampleAlert "a1" "pending"]))]) = 1 ∧
    toastsFor parseFloatUnit "a1" (initial Unit)
      ([Event.poll [] (Response.resolved true (some [sampleAlert "a1" "pending"]))] ++
        Event.push sampleClock (some ⟨some (sampleData "a1")⟩) ::
        [Event.poll [sampleAlert "a1" "pending"]
          (Response.resolved true (some [sampleAlert "a1" "pending"]))]) = 1 ∧
    (run parseFloatUnit (initial Unit)
      ([Event.poll [] (Response.resolved true (some [sampleAlert "a1" "pending"]))] ++
        Event.push sampleClock (some ⟨some (sampleData "a1")⟩) ::
        [Event.poll [sampleAlert "a1" "pending"]
          (Response.resolved true (some [sampleAlert "a1" "pending"]))])).effects
      = [Effect.playAlertSound, Effect.toast] := by
  have h := effect_once_when_known parseFloatUnit "a1" (initial Unit)
    [Event.poll [] (Response.resolved true (some [sampleAlert "a1" "pending"]))]
    [Event.poll [sampleAlert "a1" "pending"]
      (Response.resolved true (some [sampleAlert "a1" "pending"]))]
    sampleClock (sampleData "a1")
    (Or.inl rfl) (by decide) (by decide) (by decide) (by decide)
  exact ⟨h.1, h.2.1, by decide⟩

/-- Witness for C4 amended: a poll that reports only `a1` against the list
`a1`, `a2` leaves exactly `a1`. -/
theorem fetchAlerts_replaces_list_witness :
    (fetchAlertsWith twoPending.alerts
      (Response.resolved true (some [sampleAlert "a1" "pending"])) twoPending).2.alerts
      = [sampleAlert "a1" "pending"] :=
  (fetchAlerts_replaces_list twoPending.alerts [sampleAlert "a1" "pending"] twoPending).1

end AlertContext
